import Mathlib

/-!
# Verification of the elastic client connection/resilience layer

Shallow embedding of the connection-pool, health-check, startup-check and
request-execution logic of the `elastic` Go client (`client.go`, `errors.go`),
together with proofs of the specification's claims about them.

Go's in-place pointer mutation is rendered as explicit state passing: the
pool of connections is a `List Conn` plus the rotation cursor, and every
operation returns the updated pool.  Network I/O is abstracted by oracles
(`Nat → SendOutcome` etc.) giving the outcome of each physical probe/send:
the control flow around those outcomes is translated line by line from the
source.
-/

namespace Elastic

/-- Errors, as values.  Mirrors the error kinds the embedded code can
produce or inspect: Go's `context.Canceled` / `context.DeadlineExceeded`,
`*url.Error` (with its `Temporary()` bit and wrapped cause, cf.
`IsContextErr` in `errors.go`), the Elasticsearch `*Error` type carrying an
HTTP status (`errors.go`), `ErrNoClient`, `errors.Wrap`-style wrapping, and
opaque transport errors. -/
inductive Err where
  | ctxCanceled : Err
  | ctxDeadline : Err
  | urlErr (temporary : Bool) (cause : Err) : Err
  | esError (status : Nat) : Err
  | noClient : Err
  | wrapped (msg : String) (cause : Err) : Err
  | transport (msg : String) : Err
deriving Repr, DecidableEq

/-- `IsContextErr` from `errors.go` (lines 127-140): true for
`context.Canceled` / `context.DeadlineExceeded`, and for a `*url.Error`
that is `Temporary()` or (recursively) wraps a context error. -/
def IsContextErr : Err → Bool
  | .ctxCanceled => true
  | .ctxDeadline => true
  | .urlErr temporary cause => temporary || IsContextErr cause
  | _ => false

/-- Modelled from the spec: `IsUnauthorized` is referenced by
`startupHealthcheck` but its definition is not under `src/`; the spec
treats "auth errors (401)" as the unauthorized class, and the code stores
them as `&Error{Status: 401}`. -/
def IsUnauthorized : Err → Bool
  | .esError status => status == 401
  | _ => false

/-- Modelled from the spec: the connection record (`conn.go` is not under
`src/`).  Per the spec's data model, an Endpoint tracks a stable node
identifier, a base URL, an alive|dead liveness flag and a failure counter
used for reporting. -/
structure Conn where
  nodeID : String
  url : String
  dead : Bool
  failures : Nat
deriving Repr, DecidableEq

/-- Modelled from the spec: `markDead` flips the entry to dead, recording
the failure in the counter. -/
def Conn.markDead (c : Conn) : Conn :=
  { c with dead := true, failures := c.failures + 1 }

/-- Modelled from the spec: `markAlive` is a bare liveness flip back to
alive (it does not clear the failure counter; only `markHealthy` does). -/
def Conn.markAlive (c : Conn) : Conn :=
  { c with dead := false }

/-- Modelled from the spec: `markHealthy` marks the entry alive and
additionally clears the failure counter (used after a fully successful
round-trip). -/
def Conn.markHealthy (c : Conn) : Conn :=
  { c with dead := false, failures := 0 }

deriving instance DecidableEq for Except

/-- The slice of `Client` state that the pool operations touch:
`c.conns`, the rotation cursor `c.cindex` (an `int` in Go, `-1` after
(re-)initialization), and the `snifferEnabled` flag consulted by `next`. -/
structure Pool where
  conns : List Conn
  cindex : Int
  snifferEnabled : Bool
deriving Repr, DecidableEq

/-- One cursor advance of `Client.next` (client.go lines 1047-1050):
`c.cindex++; if c.cindex >= numConns { c.cindex = 0 }`. -/
def advanceCursor (numConns : Nat) (cindex : Int) : Int :=
  if cindex + 1 ≥ (numConns : Int) then 0 else cindex + 1

/-- The scan loop of `Client.next` (client.go lines 1040-1055): visit at
most `numConns` connections, advancing the cursor each time, and return
the index of the first non-dead one (together with the final cursor).
`fuel` is the remaining number of loop iterations (`numConns - i` in Go);
the second component is the cursor after the scan. -/
def nextScan (conns : List Conn) : Nat → Int → Option Nat × Int
  | 0, cindex => (none, cindex)
  | fuel + 1, cindex =>
    match conns.get? (advanceCursor conns.length cindex).toNat with
    | some conn =>
      if conn.dead then nextScan conns fuel (advanceCursor conns.length cindex)
      else (some (advanceCursor conns.length cindex).toNat,
            advanceCursor conns.length cindex)
    | none => (none, advanceCursor conns.length cindex)

/-- `Client.next` (client.go lines 1034-1070).  Returns the index of the
selected connection (`Except` carries the `errors.Wrap(ErrNoClient, ...)`
failure), the updated pool, and the list of error-log messages emitted.
When every connection is dead and sniffing is disabled, all connections
are resurrected (`MarkAsAlive`) and an error-level event is logged, but
the call still fails. -/
def Pool.next (p : Pool) : Except Err Nat × Pool × List String :=
  match nextScan p.conns p.conns.length p.cindex with
  | (some idx, cindex) => (.ok idx, { p with cindex := cindex }, [])
  | (none, cindex) =>
    let fail : Except Err Nat := .error (.wrapped "no available connection" .noClient)
    if p.snifferEnabled then
      (fail, { p with cindex := cindex }, [])
    else
      (fail,
       { p with conns := p.conns.map Conn.markAlive, cindex := cindex },
       ["elastic: all " ++ toString p.conns.length ++
        " nodes marked as dead; resurrecting them to prevent deadlock"])

/-- Outcome of one health-check probe (the HEAD request raced against its
timeout in `Client.healthcheck`, client.go lines 913-967): the context
timeout fires first, the request goroutine reports an error, or it reports
an HTTP status. -/
inductive ProbeOutcome where
  | timeout : ProbeOutcome
  | sendErr (e : Err) : ProbeOutcome
  | status (code : Nat) : ProbeOutcome
deriving Repr, DecidableEq

/-- The per-connection body of `Client.healthcheck` (client.go lines
950-967): on timeout mark dead, on error mark dead, on a 2xx status mark
alive, on any other status mark dead. -/
def healthcheckConn (o : ProbeOutcome) (c : Conn) : Conn :=
  match o with
  | .timeout => c.markDead
  | .sendErr _ => c.markDead
  | .status code => if 200 ≤ code ∧ code < 300 then c.markAlive else c.markDead

/-- `Client.healthcheck` (client.go lines 897-969) as a sweep over the
connection list, with the probe outcome for the connection at index `i`
given by the oracle `probe i`.  A no-op when health checks are disabled
and the call is not forced (lines 899-902). -/
def healthcheck (enabled force : Bool) (probe : Nat → ProbeOutcome)
    (conns : List Conn) : List Conn :=
  if !enabled && !force then conns
  else (List.range conns.length).zipWith (fun i c => healthcheckConn (probe i) c) conns

/-- The match test of `Client.updateConns` (client.go line 852): an old
connection is taken over when both its `NodeID` and its `URL` coincide
with the discovered one's. -/
def connMatches (discovered old : Conn) : Bool :=
  old.nodeID == discovered.nodeID && old.url == discovered.url

/-- `Client.updateConns` (client.go lines 840-869): for each discovered
connection keep the first matching existing entry (with its liveness state
and failure count), otherwise adopt the new entry; entries not matched by
any discovered connection are dropped, and the cursor is reset to `-1`. -/
def Pool.updateConns (p : Pool) (discovered : List Conn) : Pool :=
  let newConns := discovered.map fun c =>
    match p.conns.find? (connMatches c) with
    | some oldConn => oldConn
    | none => c
  { p with conns := newConns, cindex := -1 }

/-- Outcome of probing one seed URL inside a round of
`Client.startupHealthcheck` (client.go lines 987-1013): `http.NewRequest`
itself fails, `Do` returns a transport error, or a response with a status
code arrives. -/
inductive UrlProbe where
  | reqErr (e : Err) : UrlProbe
  | doErr (e : Err) : UrlProbe
  | status (code : Nat) : UrlProbe
deriving Repr, DecidableEq

/-- Result of one inner round over all seed URLs: the function returned
`nil` (a 2xx answered), the function returned a request-construction error
verbatim, or the round completed carrying the accumulated `lastErr`. -/
inductive RoundRes where
  | success : RoundRes
  | reqFail (e : Err) : RoundRes
  | cont (lastErr : Option Err) : RoundRes
deriving Repr, DecidableEq

/-- The inner `for _, url := range urls` loop of `startupHealthcheck`
(client.go lines 987-1013), iterating over the probe outcomes for this
round's URLs: a `NewRequest` error returns immediately; a `Do` error sets
`lastErr`; a 2xx returns `nil`; a 401 sets `lastErr` to
`&Error{Status: 401}`; any other status leaves `lastErr` unchanged. -/
def startupRound : List UrlProbe → Option Err → RoundRes
  | [], lastErr => .cont lastErr
  | p :: rest, lastErr =>
    match p with
    | .reqErr e => .reqFail e
    | .doErr e => startupRound rest (some e)
    | .status code =>
      if 200 ≤ code ∧ code < 300 then .success
      else if code == 401 then startupRound rest (some (.esError code))
      else startupRound rest lastErr

/-- The outer retry loop of `startupHealthcheck` (client.go lines
986-1023).  `rounds r` gives the probe outcomes for round `r`; `cancels r`
gives the parent context's error if it is found cancelled in the `select`
after round `r`.  `fuel` is the number of one-second sleeps that still fit
in the startup timeout: when it reaches zero, `time.Since(start) > timeout`
holds and the loop sets `done`. -/
def startupLoop (rounds : Nat → List UrlProbe) (cancels : Nat → Option Err) :
    Nat → Nat → Option Err → RoundRes
  | 0, r, lastErr =>
    match startupRound (rounds r) lastErr with
    | .success => .success
    | .reqFail e => .reqFail e
    | .cont le =>
      match cancels r with
      | some ce => .cont (some ce)
      | none => .cont le
  | fuel + 1, r, lastErr =>
    match startupRound (rounds r) lastErr with
    | .success => .success
    | .reqFail e => .reqFail e
    | .cont le =>
      match cancels r with
      | some ce => .cont (some ce)
      | none => startupLoop rounds cancels fuel (r + 1) le

/-- `Client.startupHealthcheck` (client.go lines 973-1031).  Returns
`none` for success (`nil`), otherwise the error: a `NewRequest` error
verbatim; a final `lastErr` verbatim when it is a context or auth (401)
error; otherwise `errors.Wrap(ErrNoClient, "health check timeout")`
(the formatting of the wrapped message around the underlying error is
elided). -/
def startupHealthcheck (rounds : Nat → List UrlProbe) (cancels : Nat → Option Err)
    (fuel : Nat) : Option Err :=
  match startupLoop rounds cancels fuel 0 none with
  | .success => none
  | .reqFail e => some e
  | .cont lastErr =>
    match lastErr with
    | some e =>
      if IsContextErr e || IsUnauthorized e then some e
      else some (.wrapped "health check timeout" .noClient)
    | none => some (.wrapped "health check timeout" .noClient)

/-- `createResponseError` (errors.go lines 44-64) restricted to what it
derives the `Status` field from: `bodyStatus = none` models a missing,
unreadable or unparseable body (the `Error` carries the HTTP status);
`bodyStatus = some s` models a parsed body whose `status` field is `s`
(`0` when absent), which is kept unless it is `0`. -/
def createResponseError (httpStatus : Nat) (bodyStatus : Option Nat) : Err :=
  match bodyStatus with
  | none => .esError httpStatus
  | some s => if s == 0 then .esError httpStatus else .esError s

/-- `checkResponse` (errors.go lines 28-40): `nil` for a status in
[200..299] or one listed in `ignoreErrors`, otherwise the `*Error` built
by `createResponseError`. -/
def checkResponse (httpStatus : Nat) (ignoreErrors : List Nat)
    (bodyStatus : Option Nat) : Option Err :=
  if 200 ≤ httpStatus ∧ httpStatus ≤ 299 then none
  else if httpStatus ∈ ignoreErrors then none
  else some (createResponseError httpStatus bodyStatus)

/-- The part of the `Response` object relevant here: its HTTP status. -/
structure Response where
  statusCode : Nat
deriving Repr, DecidableEq

/-- Modelled from the spec: `Client.newResponse` (response.go, not under
`src/`) builds the returned response object from the received HTTP
response; body-reading failures are elided, so it is total here. -/
def newResponse (status : Nat) : Response :=
  { statusCode := status }

/-- Outcome of one physical send (`c.c.Do`, client.go line 1230): a
transport error, or a response with an HTTP status (paired with the
parsed-body status for `createResponseError`, see `createResponseError`). -/
inductive SendOutcome where
  | sendErr (e : Err) : SendOutcome
  | resp (status : Nat) (bodyStatus : Option Nat) : SendOutcome
deriving Repr, DecidableEq

/-- A retry decision (`Retrier.Retry`, client.go lines 1174/1237/1254):
whether to retry, and the optional short-circuiting error `rerr`.  The
wait duration only feeds `time.Sleep` and is elided. -/
structure RetryDec where
  ok : Bool
  rerr : Option Err
deriving Repr, DecidableEq

/-- The configuration snapshot `PerformRequest` takes at entry (client.go
lines 1115-1132), plus the oracles for network effects: `transport k` is
the outcome of the `k`-th physical send (0-based), and `hcProbe` feeds the
forced health-check sweep.  The retrier is consulted with the running
attempt count `n`. -/
structure ExecCfg where
  healthcheckEnabled : Bool
  retrier : Nat → RetryDec
  retryStatusCodes : List Nat
  ignoreErrors : List Nat
  transport : Nat → SendOutcome
  hcProbe : Nat → ProbeOutcome

/-- The mutable state of one `PerformRequest` call: the pool, the attempt
counter `n`, the `retried` flag, and the number of physical sends made so
far (counts calls to `c.c.Do`). -/
structure ExecState where
  pool : Pool
  n : Nat
  retried : Bool
  sends : Nat
deriving Repr, DecidableEq

/-- Apply `f` to the connection at index `idx` (the pointer-mutation of
one `*conn` rendered on the list). -/
def modifyConn (conns : List Conn) (idx : Nat) (f : Conn → Conn) : List Conn :=
  match conns.get? idx with
  | some c => conns.set idx (f c)
  | none => conns

/-- Update the selected connection inside the state. -/
def ExecState.withConn (st : ExecState) (idx : Nat) (f : Conn → Conn) : ExecState :=
  { st with pool := { st.pool with conns := modifyConn st.pool.conns idx f } }

/-- Result of `PerformRequest`: success with a response, an error with the
optional partially-built response, or fuel exhaustion (the Go loop ran
longer than the fuel bound). -/
inductive ExecResult where
  | ok (resp : Response) : ExecResult
  | err (resp : Option Response) (e : Err) : ExecResult
  | fuelOut : ExecResult
deriving Repr, DecidableEq

/-- The tail of a loop iteration after the retry-status check (client.go
lines 1268-1299): `checkResponse`; on an application error return it with
the (partially built) response and no retry; otherwise `MarkAsHealthy` on
the connection and return the parsed response. -/
def respond (cfg : ExecCfg) (st : ExecState) (idx status : Nat)
    (bodyStatus : Option Nat) : ExecResult × ExecState :=
  match checkResponse status cfg.ignoreErrors bodyStatus with
  | some e => (.err (some (newResponse status)) e, st)
  | none => (.ok (newResponse status), st.withConn idx Conn.markHealthy)

/-- The retry loop of `Client.PerformRequest` (client.go lines 1156-1300),
with request construction (`NewRequest`, headers, body) assumed to
succeed.  Each iteration: pick a connection via `next`; on `ErrNoClient`
force a health-check sweep once and/or consult the retrier; otherwise
send.  A context error returns immediately without liveness changes; a
transport error consults the retrier and marks the connection dead when
giving up; a retryable status consults the retrier and falls through to
`respond` when it declines. -/
def performLoop (cfg : ExecCfg) : Nat → ExecState → ExecResult × ExecState
  | 0, st => (.fuelOut, st)
  | fuel + 1, st =>
    match st.pool.next with
    | (.error e, pool1, _) =>
      let st1 : ExecState := { st with pool := pool1, n := st.n + 1 }
      if !st1.retried && cfg.healthcheckEnabled then
        let pool2 : Pool :=
          { pool1 with conns := healthcheck true false cfg.hcProbe pool1.conns }
        performLoop cfg fuel { st1 with pool := pool2, retried := true }
      else
        let d := cfg.retrier st1.n
        match d.rerr with
        | some rerr => (.err none rerr, st1)
        | none =>
          if !d.ok then (.err none e, st1)
          else performLoop cfg fuel { st1 with retried := true }
    | (.ok idx, pool1, _) =>
      match cfg.transport st.sends with
      | .sendErr e =>
        let st1 : ExecState := { st with pool := pool1, sends := st.sends + 1 }
        if IsContextErr e then (.err none e, st1)
        else
          let st2 : ExecState := { st1 with n := st1.n + 1 }
          let d := cfg.retrier st2.n
          match d.rerr with
          | some rerr => (.err none rerr, st2.withConn idx Conn.markDead)
          | none =>
            if !d.ok then (.err none e, st2.withConn idx Conn.markDead)
            else performLoop cfg fuel { st2 with retried := true }
      | .resp status bodyStatus =>
        let st1 : ExecState := { st with pool := pool1, sends := st.sends + 1 }
        if status ∈ cfg.retryStatusCodes then
          let st2 : ExecState := { st1 with n := st1.n + 1 }
          let d := cfg.retrier st2.n
          match d.rerr with
          | some rerr => (.err none rerr, st2.withConn idx Conn.markDead)
          | none =>
            if d.ok then performLoop cfg fuel { st2 with retried := true }
            else respond cfg st2 idx status bodyStatus
        else respond cfg st1 idx status bodyStatus

/-- `Client.PerformRequest` on a fresh call state: attempt counter `0`,
`retried` unset, no sends yet. -/
def performRequest (cfg : ExecCfg) (pool : Pool) (fuel : Nat) :
    ExecResult × ExecState :=
  performLoop cfg fuel { pool := pool, n := 0, retried := false, sends := 0 }

/-- The results of `count` successive calls to `next`, threading the pool
state through. -/
def nextResults (p : Pool) : Nat → List (Except Err Nat)
  | 0 => []
  | count + 1 =>
    match p.next with
    | (r, p', _) => r :: nextResults p' count

/-- Endpoint A of the spec's example scenarios. -/
def connA : Conn := { nodeID := "A", url := "http://a:9200", dead := false, failures := 0 }

/-- Endpoint B of the spec's example scenarios. -/
def connB : Conn := { nodeID := "B", url := "http://b:9200", dead := false, failures := 0 }

/-- Endpoint C of the spec's example scenarios. -/
def connC : Conn := { nodeID := "C", url := "http://c:9200", dead := false, failures := 0 }

/-- The example pool `[A,B,C]`, all alive, cursor at its initial
position. -/
def poolABC : Pool := { conns := [connA, connB, connC], cindex := -1, snifferEnabled := false }

/-- The example pool with B marked dead. -/
def poolBdead : Pool :=
  { conns := [connA, connB.markDead, connC], cindex := -1, snifferEnabled := false }

/-- The identity a reconciliation match is decided on: the
(identifier, URL) pair. -/
def connKey (c : Conn) : String × String := (c.nodeID, c.url)

/-- A single-endpoint pool (endpoint alive, cursor at its initial
position, sniffing disabled). -/
def poolA : Pool := { conns := [connA], cindex := -1, snifferEnabled := false }

/-- `poolA` after one selection (the cursor has moved onto index 0). -/
def poolA0 : Pool := { conns := [connA], cindex := 0, snifferEnabled := false }

/-- A retry policy that allows up to `k` retries: it answers "retry" while
the attempt count is at most `k` and declines afterwards, never returning
a hard error. -/
def retrierUpTo (k : Nat) : Nat → RetryDec :=
  fun n => { ok := decide (n ≤ k), rerr := none }

/-- Executor configuration in which every physical send fails with the
transport error `e` and the policy allows exactly 2 retries. -/
def cfgTransportErr (e : Err) : ExecCfg :=
  { healthcheckEnabled := false
    retrier := retrierUpTo 2
    retryStatusCodes := []
    ignoreErrors := []
    transport := fun _ => .sendErr e
    hcProbe := fun _ => .timeout }

/-- Executor configuration in which every send yields HTTP 503, 503 is a
configured retry status code, and the policy permits exactly one retry. -/
def cfgRetryStatus : ExecCfg :=
  { healthcheckEnabled := false
    retrier := retrierUpTo 1
    retryStatusCodes := [503]
    ignoreErrors := []
    transport := fun _ => .resp 503 (some 503)
    hcProbe := fun _ => .timeout }

/-! ## Supporting lemmas -/

/-- Unfolding equation for a scan step that finds a connection. -/
lemma nextScan_succ_some {conns : List Conn} {f : Nat} {ci : Int} {c : Conn}
    (h : conns.get? (advanceCursor conns.length ci).toNat = some c) :
    nextScan conns (f + 1) ci =
      if c.dead then nextScan conns f (advanceCursor conns.length ci)
      else (some (advanceCursor conns.length ci).toNat,
            advanceCursor conns.length ci) := by
  conv_lhs => unfold nextScan
  rw [h]

/-- Unfolding equation for a scan step past the end of the list. -/
lemma nextScan_succ_none {conns : List Conn} {f : Nat} {ci : Int}
    (h : conns.get? (advanceCursor conns.length ci).toNat = none) :
    nextScan conns (f + 1) ci = (none, advanceCursor conns.length ci) := by
  conv_lhs => unfold nextScan
  rw [h]

/-- A full scan over an all-dead pool selects nothing. -/
lemma nextScan_all_dead {conns : List Conn} (hd : ∀ c ∈ conns, c.dead = true) :
    ∀ (fuel : Nat) (ci : Int), (nextScan conns fuel ci).1 = none := by
  intro fuel
  induction fuel with
  | zero => intro ci; rfl
  | succ f ih =>
    intro ci
    cases h : conns.get? (advanceCursor conns.length ci).toNat with
    | none => rw [nextScan_succ_none h]
    | some c =>
      have hc : c.dead = true := hd c (List.get?_mem h)
      rw [nextScan_succ_some h, if_pos hc]
      exact ih _

/-- The advanced cursor is a valid index into a nonempty pool. -/
lemma advanceCursor_toNat_lt {N : Nat} (hN : 0 < N) (ci : Int) :
    (advanceCursor N ci).toNat < N := by
  unfold advanceCursor
  split <;> omega

/-- For a cursor in the valid range `[-1, N)`, one cursor advance is
exactly the increment modulo the pool size. -/
lemma advanceCursor_eq_emod {N : Nat} (ci : Int) (hN : 0 < N)
    (h1 : -1 ≤ ci) (h2 : ci < (N : Int)) :
    advanceCursor N ci = (ci + 1) % (N : Int) := by
  unfold advanceCursor
  by_cases h : ci + 1 ≥ (N : Int)
  · have he : ci + 1 = (N : Int) := by omega
    rw [if_pos h, he, Int.emod_self]
  · rw [if_neg h, Int.emod_eq_of_lt (by omega) (by omega)]

/-- Soundness of the scan: a selected index is in range and its
connection is not dead. -/
lemma nextScan_sound {conns : List Conn} :
    ∀ {fuel : Nat} {ci ci' : Int} {i : Nat},
      nextScan conns fuel ci = (some i, ci') →
      ∃ h : i < conns.length, (conns.get ⟨i, h⟩).dead = false := by
  intro fuel
  induction fuel with
  | zero =>
    intro ci ci' i h
    simp [nextScan] at h
  | succ f ih =>
    intro ci ci' i h
    cases hg : conns.get? (advanceCursor conns.length ci).toNat with
    | none => rw [nextScan_succ_none hg] at h; simp at h
    | some c =>
      rw [nextScan_succ_some hg] at h
      by_cases hc : c.dead
      · rw [if_pos hc] at h
        exact ih h
      · rw [if_neg hc] at h
        simp only [Prod.mk.injEq, Option.some.injEq] at h
        obtain ⟨h1, -⟩ := h
        rw [List.get?_eq_some] at hg
        obtain ⟨hlt, hget⟩ := hg
        subst h1
        exact ⟨hlt, by rw [hget]; simpa using hc⟩

/-- A successful selection does not change the connection list (only the
cursor moves). -/
lemma next_ok_conns {p : Pool} {idx : Nat} {p' : Pool} {logs : List String}
    (h : p.next = (.ok idx, p', logs)) : p'.conns = p.conns := by
  unfold Pool.next at h
  cases hs : nextScan p.conns p.conns.length p.cindex with
  | mk sel ci =>
    cases sel with
    | some j =>
      rw [hs] at h
      simp only [Prod.mk.injEq] at h
      obtain ⟨-, h2, -⟩ := h
      rw [← h2]
    | none =>
      rw [hs] at h
      by_cases hsn : p.snifferEnabled <;> simp [hsn] at h

/-- A successful selection returns an in-range, live connection. -/
lemma next_ok_live {p : Pool} {idx : Nat} {p' : Pool} {logs : List String}
    (h : p.next = (.ok idx, p', logs)) :
    ∃ hlt : idx < p.conns.length, (p.conns.get ⟨idx, hlt⟩).dead = false := by
  unfold Pool.next at h
  cases hs : nextScan p.conns p.conns.length p.cindex with
  | mk sel ci =>
    cases sel with
    | some j =>
      rw [hs] at h
      simp only [Prod.mk.injEq, Except.ok.injEq] at h
      obtain ⟨h1, -, -⟩ := h
      subst h1
      exact nextScan_sound hs
    | none =>
      rw [hs] at h
      by_cases hsn : p.snifferEnabled <;> simp [hsn] at h

/-- On an all-alive nonempty pool with a cursor in the valid range,
`next` succeeds and returns exactly the next index modulo the pool size:
the round-robin step. -/
lemma next_all_alive_step {p : Pool}
    (ha : ∀ c ∈ p.conns, c.dead = false) (hne : p.conns ≠ [])
    (h1 : -1 ≤ p.cindex) (h2 : p.cindex < (p.conns.length : Int)) :
    p.next = (.ok ((p.cindex + 1) % (p.conns.length : Int)).toNat,
              { p with cindex := (p.cindex + 1) % (p.conns.length : Int) }, []) := by
  have hN : 0 < p.conns.length := List.length_pos.2 hne
  have hadv := advanceCursor_eq_emod p.cindex hN h1 h2
  have hlt : (advanceCursor p.conns.length p.cindex).toNat < p.conns.length :=
    advanceCursor_toNat_lt hN p.cindex
  have hget : p.conns.get? (advanceCursor p.conns.length p.cindex).toNat =
      some (p.conns.get ⟨_, hlt⟩) := List.get?_eq_get hlt
  have hlive : (p.conns.get ⟨(advanceCursor p.conns.length p.cindex).toNat, hlt⟩).dead
      = false := ha _ (List.get_mem _ _ _)
  have hscan : nextScan p.conns p.conns.length p.cindex =
      (some (advanceCursor p.conns.length p.cindex).toNat,
       advanceCursor p.conns.length p.cindex) := by
    obtain ⟨m, hm⟩ := Nat.exists_eq_succ_of_ne_zero (Nat.pos_iff_ne_zero.1 hN)
    conv_lhs => rw [hm]
    rw [nextScan_succ_some hget, if_neg (by rw [hlive]; simp)]
  unfold Pool.next
  rw [hscan, hadv]

/-- A full scan over an all-alive nonempty pool succeeds on its very
first probe. -/
lemma nextScan_full_alive {conns : List Conn} (ci : Int)
    (ha : ∀ c ∈ conns, c.dead = false) (hN : 0 < conns.length) :
    nextScan conns conns.length ci =
      (some (advanceCursor conns.length ci).toNat,
       advanceCursor conns.length ci) := by
  have hlt : (advanceCursor conns.length ci).toNat < conns.length :=
    advanceCursor_toNat_lt hN ci
  have hget : conns.get? (advanceCursor conns.length ci).toNat =
      some (conns.get ⟨_, hlt⟩) := List.get?_eq_get hlt
  have hlive : (conns.get ⟨(advanceCursor conns.length ci).toNat, hlt⟩).dead = false :=
    ha _ (List.get_mem _ _ _)
  obtain ⟨m, hm⟩ := Nat.exists_eq_succ_of_ne_zero (Nat.pos_iff_ne_zero.1 hN)
  conv_lhs => rw [hm]
  rw [nextScan_succ_some hget, if_neg (by rw [hlive]; simp)]

/-- On an all-alive nonempty pool, `next` always succeeds. -/
lemma next_all_alive_ok {p : Pool}
    (ha : ∀ c ∈ p.conns, c.dead = false) (hne : p.conns ≠ []) :
    ∃ (i : Nat) (p' : Pool) (logs : List String), p.next = (.ok i, p', logs) := by
  have hN : 0 < p.conns.length := List.length_pos.2 hne
  have h : p.next = (.ok (advanceCursor p.conns.length p.cindex).toNat,
      { p with cindex := advanceCursor p.conns.length p.cindex }, []) := by
    unfold Pool.next
    rw [nextScan_full_alive p.cindex ha hN]
  exact ⟨_, _, _, h⟩


/-- If a full-length scan fails, every connection at the cyclically
visited positions is dead. -/
lemma nextScan_none_visits {conns : List Conn} (hN : 0 < conns.length) :
    ∀ {fuel : Nat} {ci : Int}, -1 ≤ ci → ci < (conns.length : Int) →
      (nextScan conns fuel ci).1 = none →
      ∀ k : Nat, k < fuel → ∀ c : Conn,
        conns.get? ((ci + 1 + (k : Int)) % (conns.length : Int)).toNat = some c →
        c.dead = true := by
  intro fuel
  induction fuel with
  | zero => intro ci _ _ _ k hk; omega
  | succ f ih =>
    intro ci hlo hhi hnone k hk c hc
    have hadv := advanceCursor_eq_emod ci hN hlo hhi
    have hlt : (advanceCursor conns.length ci).toNat < conns.length :=
      advanceCursor_toNat_lt hN ci
    have hget : conns.get? (advanceCursor conns.length ci).toNat =
        some (conns.get ⟨_, hlt⟩) := List.get?_eq_get hlt
    rw [nextScan_succ_some hget] at hnone
    by_cases hdead : (conns.get ⟨(advanceCursor conns.length ci).toNat, hlt⟩).dead
    · rw [if_pos hdead] at hnone
      cases k with
      | zero =>
        have hpos : ci + 1 + ((0 : Nat) : Int) = ci + 1 := by push_cast; ring
        rw [hpos, ← hadv, hget] at hc
        have heq : conns.get ⟨(advanceCursor conns.length ci).toNat, hlt⟩ = c := by
          injection hc
        rw [← heq]
        exact hdead
      | succ j =>
        have hp0 : (0 : Int) ≤ advanceCursor conns.length ci := by
          rw [hadv]
          exact Int.emod_nonneg _ (by omega)
        have hpN : advanceCursor conns.length ci < (conns.length : Int) := by
          rw [hadv]
          exact Int.emod_lt_of_pos _ (by omega)
        have hcong : (advanceCursor conns.length ci + 1 + (j : Int))
            % (conns.length : Int) =
            (ci + 1 + ((j + 1 : Nat) : Int)) % (conns.length : Int) := by
          rw [hadv]
          conv_lhs => rw [Int.add_assoc, Int.emod_add_emod]
          push_cast
          ring_nf
        refine ih (by omega) hpN hnone j (by omega) c ?_
        rw [hcong]
        exact hc
    · rw [if_neg hdead] at hnone
      simp at hnone

/-- Completeness of `next`: with a cursor in the valid range, `next`
succeeds whenever some connection is alive. -/
lemma next_complete {p : Pool} (h1 : -1 ≤ p.cindex)
    (h2 : p.cindex < (p.conns.length : Int))
    (hlive : ∃ (j : Nat) (h : j < p.conns.length),
      (p.conns.get ⟨j, h⟩).dead = false) :
    ∃ (i : Nat) (pool1 : Pool) (logs : List String),
      p.next = (.ok i, pool1, logs) := by
  obtain ⟨j, hj, hjl⟩ := hlive
  have hN : 0 < p.conns.length := by omega
  cases hval : nextScan p.conns p.conns.length p.cindex with
  | mk sel ci =>
    cases sel with
    | some i =>
      refine ⟨i, { p with cindex := ci }, [], ?_⟩
      unfold Pool.next
      rw [hval]
    | none =>
      exfalso
      have hnone : (nextScan p.conns p.conns.length p.cindex).1 = none := by
        rw [hval]
      have hNpos : (0 : Int) < (p.conns.length : Int) := by positivity
      have hk0 : (0 : Int) ≤ ((j : Int) - p.cindex - 1) % (p.conns.length : Int) :=
        Int.emod_nonneg _ (by omega)
      have hkN : ((j : Int) - p.cindex - 1) % (p.conns.length : Int)
          < (p.conns.length : Int) := Int.emod_lt_of_pos _ hNpos
      have hkNat : (((((j : Int) - p.cindex - 1) % (p.conns.length : Int)).toNat : Int))
          = ((j : Int) - p.cindex - 1) % (p.conns.length : Int) :=
        Int.toNat_of_nonneg hk0
      have hkcast : (((j : Int) - p.cindex - 1) % (p.conns.length : Int)).toNat
          < p.conns.length := by omega
      have hposj : (p.cindex + 1 +
          (((((j : Int) - p.cindex - 1) % (p.conns.length : Int)).toNat : Int)))
          % (p.conns.length : Int) = (j : Int) := by
        rw [hkNat]
        have hstep : (p.cindex + 1 + ((j : Int) - p.cindex - 1) % (p.conns.length : Int))
            % (p.conns.length : Int)
            = (p.cindex + 1 + ((j : Int) - p.cindex - 1)) % (p.conns.length : Int) := by
          conv_lhs => rw [Int.add_comm (p.cindex + 1) _, Int.emod_add_emod]
          ring_nf
        rw [hstep]
        have hsimp : p.cindex + 1 + ((j : Int) - p.cindex - 1) = (j : Int) := by ring
        rw [hsimp, Int.emod_eq_of_lt (by omega) (by omega)]
      have hvisit := nextScan_none_visits hN h1 h2 hnone
        ((((j : Int) - p.cindex - 1) % (p.conns.length : Int)).toNat) hkcast
        (p.conns.get ⟨j, hj⟩)
      rw [hposj] at hvisit
      have : (p.conns.get ⟨j, hj⟩).dead = true := by
        apply hvisit
        have : ((j : Int)).toNat = j := by omega
        rw [this]
        exact List.get?_eq_get hj
      rw [hjl] at this
      cases this

/-! ## Claims -/

/-- C1: with every endpoint dead, a single `next()` call fails with the
wrapped `ErrNoClient`; if sniffing is disabled it resurrects every
endpoint (marks all alive) and logs an error-level event, and the
immediately following `next()` call succeeds; if sniffing is enabled no
endpoint's liveness changes, nothing is logged, and the same error is
returned. -/
theorem next_all_dead_resurrection (p : Pool)
    (hd : ∀ c ∈ p.conns, c.dead = true) (hne : p.conns ≠ []) :
    p.next.1 = .error (.wrapped "no available connection" .noClient) ∧
    (p.snifferEnabled = false →
      p.next.2.1.conns = p.conns.map Conn.markAlive ∧
      p.next.2.2 = ["elastic: all " ++ toString p.conns.length ++
        " nodes marked as dead; resurrecting them to prevent deadlock"] ∧
      ∃ (i : Nat) (p'' : Pool) (logs : List String),
        p.next.2.1.next = (.ok i, p'', logs)) ∧
    (p.snifferEnabled = true →
      p.next.2.1.conns = p.conns ∧ p.next.2.2 = []) := by
  have hscan1 : (nextScan p.conns p.conns.length p.cindex).1 = none :=
    nextScan_all_dead hd _ _
  obtain ⟨ci, hs⟩ : ∃ ci, nextScan p.conns p.conns.length p.cindex = (none, ci) := by
    cases hval : nextScan p.conns p.conns.length p.cindex with
    | mk sel c =>
      cases sel with
      | some j => rw [hval] at hscan1; simp at hscan1
      | none => exact ⟨c, rfl⟩
  by_cases hsn : p.snifferEnabled
  · have hnext : p.next = (.error (.wrapped "no available connection" .noClient),
        { p with cindex := ci }, []) := by
      unfold Pool.next
      rw [hs]
      simp [hsn]
    refine ⟨by rw [hnext], fun h => ?_, fun _ => ⟨by rw [hnext], by rw [hnext]⟩⟩
    rw [h] at hsn
    exact absurd hsn (by decide)
  · have hsn' : p.snifferEnabled = false := by simpa using hsn
    have hnext : p.next = (.error (.wrapped "no available connection" .noClient),
        { p with conns := p.conns.map Conn.markAlive, cindex := ci },
        ["elastic: all " ++ toString p.conns.length ++
         " nodes marked as dead; resurrecting them to prevent deadlock"]) := by
      unfold Pool.next
      rw [hs]
      simp [hsn']
    refine ⟨by rw [hnext], fun _ => ⟨by rw [hnext], by rw [hnext], ?_⟩,
      fun h => absurd h hsn⟩
    rw [hnext]
    exact next_all_alive_ok
      (p := { p with conns := p.conns.map Conn.markAlive, cindex := ci })
      (by intro c hc
          obtain ⟨c0, -, hc0⟩ := List.mem_map.1 hc
          rw [← hc0]
          rfl)
      (by simpa using hne)

/-- Witness for C1 at a concrete all-dead two-endpoint pool with sniffing
disabled. -/
theorem next_all_dead_resurrection_witness :
    (∀ c ∈ ({ conns := [connA.markDead, connB.markDead], cindex := 0,
              snifferEnabled := false } : Pool).conns, c.dead = true) ∧
    ({ conns := [connA.markDead, connB.markDead], cindex := 0,
       snifferEnabled := false } : Pool).next.1 =
      .error (.wrapped "no available connection" .noClient) := by
  refine ⟨by decide, ?_⟩
  exact (next_all_dead_resurrection _ (by decide) (by decide)).1

/-- C2: `next` is round-robin, skipping dead endpoints.  The example pool
`[A,B,C]` (all alive, initial cursor) yields indices `0,1,2,0` over four
calls; with B dead it yields `0,2,0`; in general a successful `next`
returns only a non-dead endpoint, leaves the membership unchanged, on an
all-alive pool with a valid cursor returns exactly the next index modulo
the pool size, and succeeds whenever any live endpoint exists (it cycles
through the live set rather than stopping early). -/
theorem next_round_robin :
    nextResults poolABC 4 = [.ok 0, .ok 1, .ok 2, .ok 0] ∧
    nextResults poolBdead 3 = [.ok 0, .ok 2, .ok 0] ∧
    (∀ (p : Pool) (idx : Nat) (p' : Pool) (logs : List String),
      p.next = (.ok idx, p', logs) →
      ∃ h : idx < p.conns.length,
        (p.conns.get ⟨idx, h⟩).dead = false ∧ p'.conns = p.conns) ∧
    (∀ p : Pool, (∀ c ∈ p.conns, c.dead = false) → p.conns ≠ [] →
      -1 ≤ p.cindex → p.cindex < (p.conns.length : Int) →
      p.next.1 = .ok ((p.cindex + 1) % (p.conns.length : Int)).toNat) ∧
    (∀ p : Pool, -1 ≤ p.cindex → p.cindex < (p.conns.length : Int) →
      (∃ (j : Nat) (h : j < p.conns.length), (p.conns.get ⟨j, h⟩).dead = false) →
      ∃ (i : Nat) (pool1 : Pool) (logs : List String),
        p.next = (.ok i, pool1, logs)) := by
  refine ⟨by decide, by decide, ?_, ?_, ?_⟩
  · intro p idx p' logs h
    obtain ⟨hlt, hlive⟩ := next_ok_live h
    exact ⟨hlt, hlive, next_ok_conns h⟩
  · intro p ha hne h1 h2
    rw [next_all_alive_step ha hne h1 h2]
  · intro p h1 h2 hlive
    exact next_complete h1 h2 hlive

/-- Witness for C2's general clauses at the concrete pool `[A,B,C]`. -/
theorem next_round_robin_witness :
    (∃ h : 0 < poolABC.conns.length,
      (poolABC.conns.get ⟨0, h⟩).dead = false ∧
      ({ poolABC with cindex := 0 } : Pool).conns = poolABC.conns) ∧
    poolABC.next.1 = .ok (((-1 : Int) + 1) % ((3 : Nat) : Int)).toNat := by
  constructor
  · exact next_round_robin.2.2.1 poolABC 0 { poolABC with cindex := 0 } []
      (by decide)
  · exact next_round_robin.2.2.2.1 poolABC (by decide) (by decide) (by decide)
      (by decide)

/-- C6: the liveness resulting from a health-check probe is determined
solely by the probe outcome: timeout → dead, transport error → dead,
status in [200,299] → alive, any other status → dead; and the sweep
applies exactly this to every connection in the list. -/
theorem healthcheck_probe_determines_liveness :
    (∀ c : Conn, (healthcheckConn .timeout c).dead = true) ∧
    (∀ (e : Err) (c : Conn), (healthcheckConn (.sendErr e) c).dead = true) ∧
    (∀ (s : Nat) (c : Conn), 200 ≤ s ∧ s < 300 →
      (healthcheckConn (.status s) c).dead = false) ∧
    (∀ (s : Nat) (c : Conn), ¬(200 ≤ s ∧ s < 300) →
      (healthcheckConn (.status s) c).dead = true) ∧
    (∀ (force : Bool) (probe : Nat → ProbeOutcome) (conns : List Conn) (i : Nat),
      (healthcheck true force probe conns).get? i =
        (conns.get? i).map (healthcheckConn (probe i))) := by
  refine ⟨fun c => rfl, fun e c => rfl, ?_, ?_, ?_⟩
  · intro s c hs
    simp [healthcheckConn, hs, Conn.markAlive]
  · intro s c hs
    simp [healthcheckConn, hs, Conn.markDead]
  · intro force probe conns i
    unfold healthcheck
    rw [if_neg (by simp)]
    rw [List.get?_zipWith']
    by_cases hi : i < conns.length
    · rw [List.get?_range hi, List.get?_eq_get hi]
      rfl
    · have h1 : (List.range conns.length).get? i = none := by
        rw [List.get?_eq_none, List.length_range]
        omega
      have h2 : conns.get? i = none := by
        rw [List.get?_eq_none]
        omega
      rw [h1, h2]
      rfl

/-- Witness for C6 at statuses 204 (alive) and 503 (dead). -/
theorem healthcheck_probe_determines_liveness_witness :
    (healthcheckConn (.status 204) connA).dead = false ∧
    (healthcheckConn (.status 503) connA).dead = true :=
  ⟨healthcheck_probe_determines_liveness.2.2.1 204 connA (by decide),
   healthcheck_probe_determines_liveness.2.2.2.1 503 connA (by decide)⟩


/-- `connMatches` holds exactly on key equality. -/
lemma connMatches_iff {d x : Conn} : connMatches d x = true ↔ connKey x = connKey d := by
  simp [connMatches, connKey, Prod.ext_iff]

/-- A found match shares the discovered connection's key. -/
lemma find?_connMatches_key {l : List Conn} {d x : Conn}
    (h : l.find? (connMatches d) = some x) : connKey x = connKey d :=
  connMatches_iff.1 (List.find?_some h)

/-- On a list with pairwise-distinct keys, searching for the key of the
`i`-th element finds exactly the `i`-th element. -/
lemma find?_connMatches_nodup :
    ∀ {l : List Conn}, (l.map connKey).Nodup →
      ∀ {i : Nat} (hi : i < l.length) {c : Conn},
        connKey c = connKey (l.get ⟨i, hi⟩) →
        l.find? (connMatches c) = some (l.get ⟨i, hi⟩) := by
  intro l
  induction l with
  | nil => intro _ i hi; simp at hi
  | cons x t ih =>
    intro hnd i hi c hk
    rw [List.map_cons, List.nodup_cons] at hnd
    obtain ⟨hx, ht⟩ := hnd
    cases i with
    | zero =>
      have : connMatches c x = true := connMatches_iff.2 (by simpa using hk.symm)
      rw [List.find?_cons_of_pos _ this]
      rfl
    | succ j =>
      have hj : j < t.length := by simpa using hi
      have hk' : connKey c = connKey (t.get ⟨j, hj⟩) := by
        simpa using hk
      have hneg : ¬ connMatches c x = true := by
        intro hpos
        apply hx
        rw [connMatches_iff.1 hpos, hk']
        exact List.mem_map_of_mem connKey (List.get_mem _ _ _)
      rw [List.find?_cons_of_neg _ hneg]
      have := ih ht hj hk'
      simpa using this

/-- C7: pool reconciliation keeps the matched existing entries (their
liveness and failure history included), adopts unmatched discovered
entries, drops unmatched existing entries, resets the cursor, and is
idempotent with respect to liveness: reconciling with an identical
(identifier, URL) set preserves every entry. -/
theorem updateConns_reconciliation :
    (∀ (p : Pool) (d : List Conn), (p.updateConns d).cindex = -1) ∧
    (∀ (p : Pool) (d : List Conn),
      (p.updateConns d).conns.map connKey = d.map connKey) ∧
    (∀ (p : Pool) (d : List Conn) (i : Nat) (hi : i < d.length) (old : Conn),
      p.conns.find? (connMatches (d.get ⟨i, hi⟩)) = some old →
      (p.updateConns d).conns.get? i = some old) ∧
    (∀ (p : Pool) (d : List Conn) (i : Nat) (hi : i < d.length),
      p.conns.find? (connMatches (d.get ⟨i, hi⟩)) = none →
      (p.updateConns d).conns.get? i = some (d.get ⟨i, hi⟩)) ∧
    (∀ (p : Pool) (d : List Conn) (old : Conn),
      connKey old ∉ d.map connKey → old ∉ (p.updateConns d).conns) ∧
    (∀ (p : Pool) (d : List Conn),
      (p.conns.map connKey).Nodup → d.map connKey = p.conns.map connKey →
      (p.updateConns d).conns = p.conns) := by
  have hkeys : ∀ (p : Pool) (d : List Conn),
      (p.updateConns d).conns.map connKey = d.map connKey := by
    intro p d
    unfold Pool.updateConns
    rw [List.map_map]
    apply List.map_congr_left
    intro c _
    simp only [Function.comp_apply]
    cases h : p.conns.find? (connMatches c) with
    | some old => exact find?_connMatches_key h
    | none => rfl
  have hget : ∀ (p : Pool) (d : List Conn) (i : Nat), i < d.length →
      (p.updateConns d).conns.get? i =
        ((d.get? i).map fun c =>
          match p.conns.find? (connMatches c) with
          | some oldConn => oldConn
          | none => c) := by
    intro p d i hi
    unfold Pool.updateConns
    rw [List.get?_map]
  refine ⟨fun p d => rfl, hkeys, ?_, ?_, ?_, ?_⟩
  · intro p d i hi old hfind
    rw [hget p d i hi, List.get?_eq_get hi, Option.map_some', hfind]
  · intro p d i hi hfind
    rw [hget p d i hi, List.get?_eq_get hi, Option.map_some', hfind]
  · intro p d old hkey hmem
    exact hkey (hkeys p d ▸ List.mem_map_of_mem connKey hmem)
  · intro p d hnd hk
    have hlen : d.length = p.conns.length := by
      have := congrArg List.length hk
      simpa using this
    have hlen' : (p.updateConns d).conns.length = p.conns.length := by
      have := congrArg List.length (hkeys p d)
      simpa [hlen] using this
    apply List.ext_get hlen'
    intro n h1 h2
    have hn : n < d.length := by omega
    have hkn : connKey (d.get ⟨n, hn⟩) = connKey (p.conns.get ⟨n, h2⟩) := by
      have := congrArg (fun l => l.get? n) hk
      simp only [List.get?_map] at this
      rw [List.get?_eq_get hn, List.get?_eq_get h2] at this
      simpa using this
    have hfind := find?_connMatches_nodup hnd h2 hkn
    have hsome : (p.updateConns d).conns.get? n = some (p.conns.get ⟨n, h2⟩) := by
      rw [hget p d n hn, List.get?_eq_get hn, Option.map_some', hfind]
    rw [List.get?_eq_get h1] at hsome
    simpa using hsome

/-- Witness for C7: reconciling a two-entry pool (one dead with failure
history) with an identically-keyed discovered set preserves both entries;
the cursor is reset. -/
theorem updateConns_reconciliation_witness :
    (([connA.markDead, connB].map connKey).Nodup ∧
      [{ connA with dead := false, failures := 0 },
       { connB with dead := false, failures := 0 }].map connKey =
        [connA.markDead, connB].map connKey) ∧
    (({ conns := [connA.markDead, connB], cindex := 1, snifferEnabled := false } : Pool).updateConns
        [{ connA with dead := false, failures := 0 },
         { connB with dead := false, failures := 0 }]).conns =
      [connA.markDead, connB] ∧
    (({ conns := [connA.markDead, connB], cindex := 1, snifferEnabled := false } : Pool).updateConns
        [{ connA with dead := false, failures := 0 },
         { connB with dead := false, failures := 0 }]).cindex = -1 := by
  refine ⟨⟨by decide, by decide⟩, ?_, ?_⟩
  · exact updateConns_reconciliation.2.2.2.2.2 _ _ (by decide) (by decide)
  · exact updateConns_reconciliation.1 _ _

lemma performLoop_ctx_err {cfg : ExecCfg} {st : ExecState} {idx : Nat} {pool1 : Pool}
    {logs : List String} {e : Err} {fuel : Nat}
    (hnext : st.pool.next = (.ok idx, pool1, logs))
    (hsend : cfg.transport st.sends = .sendErr e)
    (hctx : IsContextErr e = true) :
    performLoop cfg (fuel + 1) st =
      (.err none e, { st with pool := pool1, sends := st.sends + 1 }) := by
  conv_lhs => unfold performLoop
  rw [hnext, hsend]
  simp [hctx]

lemma performLoop_transport_fatal {cfg : ExecCfg} {st : ExecState} {idx : Nat}
    {pool1 : Pool} {logs : List String} {e rerr : Err} {ok : Bool} {fuel : Nat}
    (hnext : st.pool.next = (.ok idx, pool1, logs))
    (hsend : cfg.transport st.sends = .sendErr e)
    (hctx : IsContextErr e = false)
    (hdec : cfg.retrier (st.n + 1) = { ok := ok, rerr := some rerr }) :
    performLoop cfg (fuel + 1) st =
      (.err none rerr,
       ExecState.withConn { st with pool := pool1, n := st.n + 1, sends := st.sends + 1 }
         idx Conn.markDead) := by
  conv_lhs => unfold performLoop
  rw [hnext, hsend]
  simp [hctx, hdec]

lemma performLoop_transport_giveup {cfg : ExecCfg} {st : ExecState} {idx : Nat}
    {pool1 : Pool} {logs : List String} {e : Err} {fuel : Nat}
    (hnext : st.pool.next = (.ok idx, pool1, logs))
    (hsend : cfg.transport st.sends = .sendErr e)
    (hctx : IsContextErr e = false)
    (hdec : cfg.retrier (st.n + 1) = { ok := false, rerr := none }) :
    performLoop cfg (fuel + 1) st =
      (.err none e,
       ExecState.withConn { st with pool := pool1, n := st.n + 1, sends := st.sends + 1 }
         idx Conn.markDead) := by
  conv_lhs => unfold performLoop
  rw [hnext, hsend]
  simp [hctx, hdec]

lemma performLoop_transport_retry {cfg : ExecCfg} {st : ExecState} {idx : Nat}
    {pool1 : Pool} {logs : List String} {e : Err} {fuel : Nat}
    (hnext : st.pool.next = (.ok idx, pool1, logs))
    (hsend : cfg.transport st.sends = .sendErr e)
    (hctx : IsContextErr e = false)
    (hdec : cfg.retrier (st.n + 1) = { ok := true, rerr := none }) :
    performLoop cfg (fuel + 1) st =
      performLoop cfg fuel
        { st with pool := pool1, n := st.n + 1, retried := true,
                  sends := st.sends + 1 } := by
  conv_lhs => unfold performLoop
  rw [hnext, hsend]
  simp [hctx, hdec]

lemma performLoop_retrystatus_fatal {cfg : ExecCfg} {st : ExecState} {idx : Nat}
    {pool1 : Pool} {logs : List String} {status : Nat} {bodyStatus : Option Nat}
    {rerr : Err} {ok : Bool} {fuel : Nat}
    (hnext : st.pool.next = (.ok idx, pool1, logs))
    (hsend : cfg.transport st.sends = .resp status bodyStatus)
    (hmem : status ∈ cfg.retryStatusCodes)
    (hdec : cfg.retrier (st.n + 1) = { ok := ok, rerr := some rerr }) :
    performLoop cfg (fuel + 1) st =
      (.err none rerr,
       ExecState.withConn { st with pool := pool1, n := st.n + 1, sends := st.sends + 1 }
         idx Conn.markDead) := by
  conv_lhs => unfold performLoop
  rw [hnext, hsend]
  simp [hmem, hdec]

lemma performLoop_retrystatus_retry {cfg : ExecCfg} {st : ExecState} {idx : Nat}
    {pool1 : Pool} {logs : List String} {status : Nat} {bodyStatus : Option Nat} {fuel : Nat}
    (hnext : st.pool.next = (.ok idx, pool1, logs))
    (hsend : cfg.transport st.sends = .resp status bodyStatus)
    (hmem : status ∈ cfg.retryStatusCodes)
    (hdec : cfg.retrier (st.n + 1) = { ok := true, rerr := none }) :
    performLoop cfg (fuel + 1) st =
      performLoop cfg fuel
        { st with pool := pool1, n := st.n + 1, retried := true,
                  sends := st.sends + 1 } := by
  conv_lhs => unfold performLoop
  rw [hnext, hsend]
  simp [hmem, hdec]

lemma performLoop_retrystatus_decline {cfg : ExecCfg} {st : ExecState} {idx : Nat}
    {pool1 : Pool} {logs : List String} {status : Nat} {bodyStatus : Option Nat} {fuel : Nat}
    (hnext : st.pool.next = (.ok idx, pool1, logs))
    (hsend : cfg.transport st.sends = .resp status bodyStatus)
    (hmem : status ∈ cfg.retryStatusCodes)
    (hdec : cfg.retrier (st.n + 1) = { ok := false, rerr := none }) :
    performLoop cfg (fuel + 1) st =
      respond cfg { st with pool := pool1, n := st.n + 1, sends := st.sends + 1 }
        idx status bodyStatus := by
  conv_lhs => unfold performLoop
  rw [hnext, hsend]
  simp [hmem, hdec]

lemma performLoop_response {cfg : ExecCfg} {st : ExecState} {idx : Nat}
    {pool1 : Pool} {logs : List String} {status : Nat} {bodyStatus : Option Nat} {fuel : Nat}
    (hnext : st.pool.next = (.ok idx, pool1, logs))
    (hsend : cfg.transport st.sends = .resp status bodyStatus)
    (hmem : status ∉ cfg.retryStatusCodes) :
    performLoop cfg (fuel + 1) st =
      respond cfg { st with pool := pool1, sends := st.sends + 1 }
        idx status bodyStatus := by
  conv_lhs => unfold performLoop
  rw [hnext, hsend]
  simp [hmem]


/-- C3 counterexample: after the first failed physical send, when the
policy still allows a retry, the endpoint is NOT marked dead — liveness
marking does not happen per attempt.  Running the loop for exactly one
iteration (the first send has failed and a retry was granted) leaves the
endpoint alive. -/
theorem performRequest_no_per_attempt_marking :
    (performRequest (cfgTransportErr (.transport "connection refused")) poolA 1).2.sends
        = 1 ∧
    (performRequest (cfgTransportErr (.transport "connection refused")) poolA 1).1
        = .fuelOut ∧
    (performRequest (cfgTransportErr (.transport "connection refused")) poolA 1).2.pool.conns.map
        Conn.dead = [false] :=
  ⟨rfl, rfl, rfl⟩

/-- C3 (amended): a non-cancellation transport error on every send with a
policy allowing exactly 2 retries yields exactly 3 physical attempts; the
endpoint is marked dead only when the policy finally gives up (after the
third failed send), and is still alive after the first and second failed
sends. -/
theorem performRequest_transport_retry_exhaustion (e : Err)
    (hctx : IsContextErr e = false) :
    (performRequest (cfgTransportErr e) poolA 10).1 = .err none e ∧
    (performRequest (cfgTransportErr e) poolA 10).2.sends = 3 ∧
    (performRequest (cfgTransportErr e) poolA 10).2.pool.conns.map Conn.dead = [true] ∧
    (performRequest (cfgTransportErr e) poolA 1).2.pool.conns.map Conn.dead = [false] ∧
    (performRequest (cfgTransportErr e) poolA 2).2.pool.conns.map Conn.dead = [false] := by
  have hnext0 : poolA.next = (.ok 0, poolA0, []) := by decide
  have hnext1 : poolA0.next = (.ok 0, poolA0, []) := by decide
  have h1 : ∀ f, performLoop (cfgTransportErr e) (f + 1)
      { pool := poolA, n := 0, retried := false, sends := 0 } =
      performLoop (cfgTransportErr e) f
      { pool := poolA0, n := 1, retried := true, sends := 1 } := fun f =>
    performLoop_transport_retry hnext0 rfl hctx rfl
  have h2 : ∀ f, performLoop (cfgTransportErr e) (f + 1)
      { pool := poolA0, n := 1, retried := true, sends := 1 } =
      performLoop (cfgTransportErr e) f
      { pool := poolA0, n := 2, retried := true, sends := 2 } := fun f =>
    performLoop_transport_retry hnext1 rfl hctx rfl
  have h3 : ∀ f, performLoop (cfgTransportErr e) (f + 1)
      { pool := poolA0, n := 2, retried := true, sends := 2 } =
      (.err none e,
       ExecState.withConn { pool := poolA0, n := 3, retried := true, sends := 3 }
         0 Conn.markDead) := fun f =>
    performLoop_transport_giveup hnext1 rfl hctx rfl
  have hrun : performRequest (cfgTransportErr e) poolA 10 =
      (.err none e,
       ExecState.withConn { pool := poolA0, n := 3, retried := true, sends := 3 }
         0 Conn.markDead) := by
    show performLoop (cfgTransportErr e) 10
      { pool := poolA, n := 0, retried := false, sends := 0 } = _
    rw [h1 9, h2 8, h3 7]
  have hrun1 : performRequest (cfgTransportErr e) poolA 1 =
      (.fuelOut, { pool := poolA0, n := 1, retried := true, sends := 1 }) := by
    show performLoop (cfgTransportErr e) 1
      { pool := poolA, n := 0, retried := false, sends := 0 } = _
    rw [h1 0]
    rfl
  have hrun2 : performRequest (cfgTransportErr e) poolA 2 =
      (.fuelOut, { pool := poolA0, n := 2, retried := true, sends := 2 }) := by
    show performLoop (cfgTransportErr e) 2
      { pool := poolA, n := 0, retried := false, sends := 0 } = _
    rw [h1 1, h2 0]
    rfl
  exact ⟨by rw [hrun], by rw [hrun]; rfl, by rw [hrun]; rfl, by rw [hrun1]; rfl, by rw [hrun2]; rfl⟩

/-- Witness for C3's amended theorem at the concrete transport error
"connection refused". -/
theorem performRequest_transport_retry_exhaustion_witness :
    IsContextErr (.transport "connection refused") = false ∧
    (performRequest (cfgTransportErr (.transport "connection refused")) poolA 10).2.sends
      = 3 :=
  ⟨rfl, (performRequest_transport_retry_exhaustion (.transport "connection refused")
    rfl).2.1⟩

/-- C4 counterexample: with 503 retryable and a policy permitting one
retry, the policy declines at the second attempt — and the call returns
the application-level 503 error WITHOUT marking the endpoint dead,
contradicting the claim that a declined retry marks the endpoint dead. -/
theorem performRequest_retrystatus_decline_not_dead :
    (performRequest cfgRetryStatus poolA 10).1
        = .err (some (newResponse 503)) (.esError 503) ∧
    (performRequest cfgRetryStatus poolA 10).2.sends = 2 ∧
    (performRequest cfgRetryStatus poolA 10).2.pool.conns.map Conn.dead = [false] :=
  ⟨rfl, rfl, rfl⟩

/-- C4 (amended): on a retryable status code the retry policy is
consulted; a fatal policy error marks the endpoint dead and returns it; a
granted retry loops without marking dead; a declined retry falls through
to normal response handling without marking the endpoint dead (returning
the application-level error for a non-ignorable status); in the concrete
503 scenario with one permitted retry, exactly 2 physical attempts occur
and the endpoint is never marked dead. -/
theorem performRequest_retrystatus_policy (cfg : ExecCfg) (st : ExecState)
    (idx : Nat) (pool1 : Pool) (logs : List String) (status : Nat)
    (bodyStatus : Option Nat) (fuel : Nat)
    (hnext : st.pool.next = (.ok idx, pool1, logs))
    (hsend : cfg.transport st.sends = .resp status bodyStatus)
    (hmem : status ∈ cfg.retryStatusCodes) :
    (∀ (rerr : Err) (ok : Bool),
      cfg.retrier (st.n + 1) = { ok := ok, rerr := some rerr } →
      performLoop cfg (fuel + 1) st =
        (.err none rerr,
         ExecState.withConn { st with pool := pool1, n := st.n + 1, sends := st.sends + 1 }
           idx Conn.markDead)) ∧
    (cfg.retrier (st.n + 1) = { ok := true, rerr := none } →
      performLoop cfg (fuel + 1) st =
        performLoop cfg fuel
          { st with pool := pool1, n := st.n + 1, retried := true,
                    sends := st.sends + 1 }) ∧
    (cfg.retrier (st.n + 1) = { ok := false, rerr := none } →
      performLoop cfg (fuel + 1) st =
        respond cfg { st with pool := pool1, n := st.n + 1, sends := st.sends + 1 }
          idx status bodyStatus) ∧
    ((performRequest cfgRetryStatus poolA 10).2.sends = 2 ∧
     (performRequest cfgRetryStatus poolA 10).2.pool.conns.map Conn.dead = [false]) :=
  ⟨fun rerr ok hdec => performLoop_retrystatus_fatal hnext hsend hmem hdec,
   fun hdec => performLoop_retrystatus_retry hnext hsend hmem hdec,
   fun hdec => performLoop_retrystatus_decline hnext hsend hmem hdec,
   rfl, rfl⟩

/-- Witness for C4's amended theorem: the fatal-policy clause at a
concrete configuration whose retrier returns a hard error. -/
theorem performRequest_retrystatus_policy_witness :
    performLoop
      { healthcheckEnabled := false
        retrier := fun _ => { ok := false, rerr := some (.transport "fatal") }
        retryStatusCodes := [503]
        ignoreErrors := []
        transport := fun _ => .resp 503 (some 503)
        hcProbe := fun _ => .timeout } 1
      { pool := poolA, n := 0, retried := false, sends := 0 } =
      (.err none (.transport "fatal"),
       ExecState.withConn { pool := poolA0, n := 1, retried := false, sends := 1 }
         0 Conn.markDead) :=
  (performRequest_retrystatus_policy _
    { pool := poolA, n := 0, retried := false, sends := 0 } 0 poolA0 [] 503
    (some 503) 0 (by decide) rfl (by decide)).1 (.transport "fatal") false rfl

/-- C5: when the in-flight send fails with an error classified as a
context cancellation, the error is returned to the caller unchanged, the
liveness of every endpoint in the pool is untouched (the returned pool
has exactly the connections the call started with), and the retry policy
is never consulted (the outcome is identical under every retrier). -/
theorem performRequest_ctx_cancel_frame (cfg : ExecCfg) (st : ExecState)
    (idx : Nat) (pool1 : Pool) (logs : List String) (e : Err) (fuel : Nat)
    (hnext : st.pool.next = (.ok idx, pool1, logs))
    (hsend : cfg.transport st.sends = .sendErr e)
    (hctx : IsContextErr e = true) :
    performLoop cfg (fuel + 1) st =
      (.err none e, { st with pool := pool1, sends := st.sends + 1 }) ∧
    pool1.conns = st.pool.conns ∧
    (∀ retrier2 : Nat → RetryDec,
      performLoop { cfg with retrier := retrier2 } (fuel + 1) st =
        (.err none e, { st with pool := pool1, sends := st.sends + 1 })) :=
  ⟨performLoop_ctx_err hnext hsend hctx,
   next_ok_conns hnext,
   fun _ => performLoop_ctx_err hnext hsend hctx⟩

/-- Witness for C5 at a concrete canceled-context send. -/
theorem performRequest_ctx_cancel_frame_witness :
    performLoop (cfgTransportErr .ctxCanceled) 1
      { pool := poolA, n := 0, retried := false, sends := 0 } =
      (.err none .ctxCanceled,
       { pool := poolA0, n := 0, retried := false, sends := 1 }) ∧
    poolA0.conns = poolA.conns := by
  have h := performRequest_ctx_cancel_frame (cfgTransportErr .ctxCanceled)
    { pool := poolA, n := 0, retried := false, sends := 0 } 0 poolA0 []
    .ctxCanceled 0 (by decide) rfl rfl
  exact ⟨h.1, h.2.1⟩

/-- C10: `IsContextErr` classifies as context errors not only
`context.Canceled` and `context.DeadlineExceeded` but every `*url.Error`
that is `Temporary()` (whatever it wraps) or that wraps a context error;
and for a send failing with any such error, `PerformRequest` returns it
immediately — no retry-policy consultation, no dead-marking. -/
theorem isContextErr_classification :
    IsContextErr .ctxCanceled = true ∧
    IsContextErr .ctxDeadline = true ∧
    (∀ cause : Err, IsContextErr (.urlErr true cause) = true) ∧
    (∀ temporary : Bool,
      IsContextErr (.urlErr temporary .ctxCanceled) = true ∧
      IsContextErr (.urlErr temporary .ctxDeadline) = true) ∧
    (∀ msg : String, IsContextErr (.transport msg) = false) ∧
    (∀ (cfg : ExecCfg) (st : ExecState) (idx : Nat) (pool1 : Pool)
        (logs : List String) (e : Err) (fuel : Nat),
      st.pool.next = (.ok idx, pool1, logs) →
      cfg.transport st.sends = .sendErr e →
      IsContextErr e = true →
      performLoop cfg (fuel + 1) st =
        (.err none e, { st with pool := pool1, sends := st.sends + 1 }) ∧
      pool1.conns = st.pool.conns) := by
  refine ⟨rfl, rfl, fun cause => rfl, fun temporary => ⟨?_, ?_⟩,
    fun msg => rfl, ?_⟩
  · cases temporary <;> rfl
  · cases temporary <;> rfl
  · intro cfg st idx pool1 logs e fuel hnext hsend hctx
    exact ⟨performLoop_ctx_err hnext hsend hctx, next_ok_conns hnext⟩

/-- Witness for C10 at a temporary (non-cancellation) URL error: it is
classified as a context error and the send returns it immediately. -/
theorem isContextErr_classification_witness :
    IsContextErr (.urlErr true (.transport "redirect loop")) = true ∧
    performLoop (cfgTransportErr (.urlErr true (.transport "redirect loop"))) 1
      { pool := poolA, n := 0, retried := false, sends := 0 } =
      (.err none (.urlErr true (.transport "redirect loop")),
       { pool := poolA0, n := 0, retried := false, sends := 1 }) :=
  ⟨isContextErr_classification.2.2.1 (.transport "redirect loop"),
   (isContextErr_classification.2.2.2.2.2
     (cfgTransportErr (.urlErr true (.transport "redirect loop")))
     { pool := poolA, n := 0, retried := false, sends := 0 } 0 poolA0 []
     (.urlErr true (.transport "redirect loop")) 0 (by decide) rfl rfl).1⟩

/-- A round over URL probes containing no request-construction failure
returns either `success` or `cont`. -/
lemma startupRound_total :
    ∀ {probes : List UrlProbe}, (∀ p ∈ probes, ∀ e : Err, p ≠ .reqErr e) →
      ∀ le : Option Err, startupRound probes le = .success ∨
        ∃ le', startupRound probes le = .cont le' := by
  intro probes
  induction probes with
  | nil => intro _ le; exact Or.inr ⟨le, rfl⟩
  | cons p rest ih =>
    intro hreq le
    have hrest : ∀ q ∈ rest, ∀ e : Err, q ≠ .reqErr e :=
      fun q hq => hreq q (List.mem_cons_of_mem p hq)
    cases p with
    | reqErr e => exact absurd rfl (hreq (.reqErr e) (List.mem_cons_self _ _) e)
    | doErr e => exact ih hrest (some e)
    | status code =>
      by_cases h2 : 200 ≤ code ∧ code < 300
      · left
        simp [startupRound, h2]
      · by_cases h4 : code = 401
        · have := ih hrest (some (.esError code))
          simpa [startupRound, h2, h4] using this
        · have := ih hrest le
          simpa [startupRound, h2, h4] using this

/-- The startup loop over reqErr-free rounds returns either `success` or
`cont`. -/
lemma startupLoop_total {rounds : Nat → List UrlProbe} {cancels : Nat → Option Err}
    (hreq : ∀ r : Nat, ∀ p ∈ rounds r, ∀ e : Err, p ≠ .reqErr e) :
    ∀ (fuel r : Nat) (le : Option Err),
      startupLoop rounds cancels fuel r le = .success ∨
      ∃ le', startupLoop rounds cancels fuel r le = .cont le' := by
  intro fuel
  induction fuel with
  | zero =>
    intro r le
    unfold startupLoop
    rcases startupRound_total (hreq r) le with h | ⟨le', h⟩
    · rw [h]
      exact Or.inl rfl
    · rw [h]
      cases cancels r with
      | some ce => exact Or.inr ⟨some ce, rfl⟩
      | none => exact Or.inr ⟨le', rfl⟩
  | succ f ih =>
    intro r le
    rcases startupRound_total (hreq r) le with h | ⟨le', h⟩
    · left
      show startupLoop rounds cancels (f + 1) r le = RoundRes.success
      unfold startupLoop
      rw [h]
    · cases hca : cancels r with
      | some ce =>
        right
        refine ⟨some ce, ?_⟩
        unfold startupLoop
        rw [h, hca]
      | none =>
        have hstep : startupLoop rounds cancels (f + 1) r le =
            startupLoop rounds cancels f (r + 1) le' := by
          conv_lhs => unfold startupLoop
          rw [h, hca]
        rw [hstep]
        exact ih (r + 1) le'

/-- C8: the startup health check loops over the seed URLs until a 2xx
answer (returning `nil`), cancellation, or the timeout; assuming every
seed URL is well-formed (no request-construction failure), the result is
always one of: success; a context-cancellation or 401 error propagated
verbatim; or an error wrapping `ErrNoClient`.   A 2xx in the first round
returns success; a cancellation found after the first round is returned
verbatim; a round leaving a 401 as the accumulated error at the timeout is
returned verbatim. -/
theorem startupHealthcheck_classification (rounds : Nat → List UrlProbe)
    (cancels : Nat → Option Err) (fuel : Nat)
    (hreq : ∀ r : Nat, ∀ p ∈ rounds r, ∀ e : Err, p ≠ .reqErr e) :
    (startupHealthcheck rounds cancels fuel = none ∨
     (∃ e, startupHealthcheck rounds cancels fuel = some e ∧
        (IsContextErr e = true ∨ IsUnauthorized e = true)) ∨
     startupHealthcheck rounds cancels fuel =
        some (.wrapped "health check timeout" .noClient)) ∧
    (startupRound (rounds 0) none = .success →
      startupHealthcheck rounds cancels fuel = none) ∧
    (∀ le, startupRound (rounds 0) none = .cont le →
      cancels 0 = some .ctxCanceled →
      startupHealthcheck rounds cancels fuel = some .ctxCanceled) ∧
    (startupRound (rounds 0) none = .cont (some (.esError 401)) →
      cancels 0 = none → fuel = 0 →
      startupHealthcheck rounds cancels fuel = some (.esError 401)) := by
  refine ⟨?_, ?_, ?_, ?_⟩
  · unfold startupHealthcheck
    rcases startupLoop_total hreq fuel 0 none with h | ⟨le', h⟩
    · rw [h]
      exact Or.inl rfl
    · rw [h]
      cases le' with
      | none => exact Or.inr (Or.inr rfl)
      | some e =>
        by_cases hc : IsContextErr e || IsUnauthorized e
        · refine Or.inr (Or.inl ⟨e, ?_, by simpa [Bool.or_eq_true] using hc⟩)
          simp [hc]
        · refine Or.inr (Or.inr ?_)
          simp [hc]
  · intro h
    unfold startupHealthcheck
    cases fuel with
    | zero => unfold startupLoop; rw [h]
    | succ f => conv_lhs => rw [show startupLoop rounds cancels (f + 1) 0 none =
        .success from by conv_lhs => unfold startupLoop; rw [h]]
  · intro le h hcan
    have hloop : startupLoop rounds cancels fuel 0 none = .cont (some .ctxCanceled) := by
      cases fuel with
      | zero => unfold startupLoop; rw [h, hcan]
      | succ f => conv_lhs => unfold startupLoop; rw [h, hcan]
    unfold startupHealthcheck
    rw [hloop]
    rfl
  · intro h hcan hfuel
    subst hfuel
    have hloop : startupLoop rounds cancels 0 0 none = .cont (some (.esError 401)) := by
      unfold startupLoop
      rw [h, hcan]
    unfold startupHealthcheck
    rw [hloop]
    rfl

/-- Witness for C8: a single round of plain 503 answers, no cancellation,
timeout immediately after the first round — the startup check fails with
the `ErrNoClient`-wrapping error. -/
theorem startupHealthcheck_classification_witness :
    startupHealthcheck (fun _ => [.status 503]) (fun _ => none) 0 = none ∨
    (∃ e, startupHealthcheck (fun _ => [.status 503]) (fun _ => none) 0 = some e ∧
       (IsContextErr e = true ∨ IsUnauthorized e = true)) ∨
    startupHealthcheck (fun _ => [.status 503]) (fun _ => none) 0 =
       some (.wrapped "health check timeout" .noClient) :=
  (startupHealthcheck_classification (fun _ => [.status 503]) (fun _ => none) 0
    (fun _ p hp e => by
      simp only [List.mem_singleton] at hp
      subst hp
      intro hcontra
      cases hcontra)).1

/-- C9 counterexample: the `*Error` built for a failing response carries
the status parsed from the error body when that differs from the HTTP
status — HTTP 404 with a body reporting status 500 yields an `Error` with
status 500, not 404. -/
theorem checkResponse_body_status_precedence :
    checkResponse 404 [] (some 500) = some (.esError 500) ∧
    some (Err.esError 500) ≠ some (Err.esError 404) :=
  ⟨rfl, by decide⟩

/-- C9 (amended): `checkResponse` returns `nil` iff the status is in
[200,299] or in the per-call ignore list; otherwise it returns a typed
`*Error` carrying the HTTP status unless the parsed body supplies a
nonzero status of its own, which takes precedence.  `PerformRequest`
returns such an application error immediately (no retry-policy
consultation, no liveness change) together with the partially-built
response; with no application error the endpoint is marked healthy
(failure history cleared) and the parsed response is returned. -/
theorem checkResponse_application_errors :
    (∀ (s : Nat) (ign : List Nat) (bs : Option Nat),
      checkResponse s ign bs = none ↔ (200 ≤ s ∧ s ≤ 299) ∨ s ∈ ign) ∧
    (∀ (s : Nat) (ign : List Nat), ¬((200 ≤ s ∧ s ≤ 299) ∨ s ∈ ign) →
      checkResponse s ign none = some (.esError s) ∧
      checkResponse s ign (some 0) = some (.esError s) ∧
      ∀ bs : Nat, bs ≠ 0 → checkResponse s ign (some bs) = some (.esError bs)) ∧
    (∀ (cfg : ExecCfg) (st : ExecState) (idx : Nat) (pool1 : Pool)
        (logs : List String) (status : Nat) (bodyStatus : Option Nat) (fuel : Nat),
      st.pool.next = (.ok idx, pool1, logs) →
      cfg.transport st.sends = .resp status bodyStatus →
      status ∉ cfg.retryStatusCodes →
      (∀ e, checkResponse status cfg.ignoreErrors bodyStatus = some e →
        performLoop cfg (fuel + 1) st =
          (.err (some (newResponse status)) e,
           { st with pool := pool1, sends := st.sends + 1 })) ∧
      (checkResponse status cfg.ignoreErrors bodyStatus = none →
        performLoop cfg (fuel + 1) st =
          (.ok (newResponse status),
           ExecState.withConn { st with pool := pool1, sends := st.sends + 1 }
             idx Conn.markHealthy))) ∧
    (∀ c : Conn, (Conn.markHealthy c).dead = false ∧
      (Conn.markHealthy c).failures = 0) := by
  refine ⟨?_, ?_, ?_, fun c => ⟨rfl, rfl⟩⟩
  · intro s ign bs
    unfold checkResponse
    by_cases h2 : 200 ≤ s ∧ s ≤ 299
    · simp [h2]
    · by_cases hig : s ∈ ign
      · simp [h2, hig]
      · simp [h2, hig]
  · intro s ign hno
    have h2' : ¬(200 ≤ s ∧ s ≤ 299) := fun hA => hno (Or.inl hA)
    have hig : ¬(s ∈ ign) := fun hB => hno (Or.inr hB)
    refine ⟨?_, ?_, ?_⟩
    · unfold checkResponse createResponseError
      rw [if_neg h2', if_neg hig]
    · unfold checkResponse createResponseError
      rw [if_neg h2', if_neg hig]
      rfl
    · intro bs hbs
      unfold checkResponse createResponseError
      rw [if_neg h2', if_neg hig]
      simp [hbs]
  · intro cfg st idx pool1 logs status bodyStatus fuel hnext hsend hmem
    constructor
    · intro e hchk
      rw [performLoop_response hnext hsend hmem]
      unfold respond
      rw [hchk]
    · intro hchk
      rw [performLoop_response hnext hsend hmem]
      unfold respond
      rw [hchk]

/-- Witness for C9's amended theorem: endpoint marked healthy on a plain
200, and a 404 with ignore-list [404] treated as success. -/
theorem checkResponse_application_errors_witness :
    (checkResponse 200 [] none = none ↔ (200 ≤ 200 ∧ 200 ≤ 299) ∨ 200 ∈ ([] : List Nat)) ∧
    ¬((200 ≤ 404 ∧ 404 ≤ 299) ∨ 404 ∈ ([] : List Nat)) ∧
    checkResponse 404 [] none = some (.esError 404) :=
  ⟨checkResponse_application_errors.1 200 [] none,
   by decide,
   (checkResponse_application_errors.2.1 404 [] (by decide)).1⟩

end Elastic
